import Mathlib

/-!
Shallow embedding of the `cache-syncer` repository (Rust) in Lean 4.

The repository has two source files:

* `src/default_cacher.rs` — the cache orchestrator `DefaultCacher`
  (bloom filter + hot cache + disk cache, store/load/load_from_disk,
  bloom-filter warm-start recovery `init_bloom_filter`);
* `src/tests/harness.rs` — the reference disk backend `DiskPieceCache`
  (`PieceIndex` key codec, `piece_filenames` path derivation,
  `write_piece` / `read_piece`).

Keys are `u64`, modelled as `Nat` values below `2 ^ 64` where the width
matters.  Values are opaque payloads; the orchestrator model uses `Nat`
(the Rust code is generic in `V` and only clones values).  Strings are
modelled as `List Char` (Lean's `String` wraps a `List Char`).  The hot
cache and the membership filter are external capabilities in the source
(`Cache` / `BloomFilter` bounds); the hot cache is kept abstract as a type
`HC` with an injected `insert_with_weight` and an injected probe, and the
filter state is modelled as the exact list of keys inserted so far
(a sound instance of the capability contract: `set` adds a key, `check` has
no false negatives).  The disk cache trait `DiskCache` is abstract as a
type `DK` with injected `store`/`load` that may fail, matching
`Result<(), Error>` / `Result<Option<V>, Error>`.
-/

namespace CacheSyncer

/-! ### Key codec (`PieceIndex` in `src/tests/harness.rs`)

`PieceIndex` is a `u64`.  `to_bytes` / `from_bytes` are
`u64::to_le_bytes` / `u64::from_le_bytes`.  The filename text form is
`u64::to_string` (decimal ASCII), parsed back with `str::parse::<u64>`
(`TryFrom<String> for PieceIndex`). -/

/-- `u64::MAX + 1`, the size of the key space. -/
def u64Mod : Nat := 2 ^ 64

/-- `u64::to_le_bytes`: the 8 little-endian bytes of a key. -/
def to_bytes (k : Nat) : List Nat :=
  [k % 256, k / 256 % 256, k / 256 ^ 2 % 256, k / 256 ^ 3 % 256,
   k / 256 ^ 4 % 256, k / 256 ^ 5 % 256, k / 256 ^ 6 % 256, k / 256 ^ 7 % 256]

/-- `u64::from_le_bytes`: recombine 8 little-endian bytes into a key. -/
def from_bytes (bs : List Nat) : Nat :=
  match bs with
  | [b0, b1, b2, b3, b4, b5, b6, b7] =>
      b0 + 256 * b1 + 256 ^ 2 * b2 + 256 ^ 3 * b3 + 256 ^ 4 * b4 +
        256 ^ 5 * b5 + 256 ^ 6 * b6 + 256 ^ 7 * b7
  | _ => 0

/-- The ASCII character of a decimal digit (`0 ≤ d ≤ 9` in intended use). -/
def digitChar (d : Nat) : Char := Char.ofNat (48 + d)

/-- Is `c` an ASCII decimal digit? (`char::is_ascii_digit`.) -/
def isDigitChar (c : Char) : Bool := 48 ≤ c.toNat && c.toNat ≤ 57

/-- Fuel-indexed helper for `u64::to_string`: most-significant digit first.
The fuel only drives termination; any fuel above the value is enough. -/
def toDecAux : Nat → Nat → List Char
  | 0, _ => []
  | fuel + 1, n =>
      if n < 10 then [digitChar n]
      else toDecAux fuel (n / 10) ++ [digitChar (n % 10)]

/-- `u64::to_string`: the decimal-ASCII form of a key (MSB first; `0 ↦ "0"`). -/
def toDecChars (n : Nat) : List Char := toDecAux (n + 1) n

/-- Accumulate decimal digits, most significant first
(the value denoted by a digit string). -/
def digitsVal (cs : List Char) : Nat :=
  cs.foldl (fun a c => a * 10 + (c.toNat - 48)) 0

/-- `str::parse::<u64>`: an optional leading `+`, then one or more ASCII
digits, value at most `u64::MAX`; anything else is a parse error (`none`). -/
def parseU64 (s : List Char) : Option Nat :=
  let cs := match s with
    | c :: rest => if c = '+' then rest else c :: rest
    | [] => []
  if cs ≠ [] ∧ cs.all isDigitChar then
    let v := digitsVal cs
    if v < u64Mod then some v else none
  else none

/-! ### Disk backend `DiskPieceCache` (`src/tests/harness.rs`)

`Piece::SIZE = 1048672`; `M = 1024` shard subdirectories.  A path is
modelled as its list of components (`root` is the opaque prefix). -/

/-- `Piece::SIZE`: the fixed record size in bytes. -/
def PieceSIZE : Nat := 1048672

/-- `M`: the shard (subdirectory) count. -/
def shardM : Nat := 1024

/-- `DiskPieceCache::piece_filenames`: the committed path and the temporary
path for a key.  The committed path is `root/<k mod M>/<decimal k>`, the
temporary path is the same name with the `.tmp` suffix in the same shard
directory. -/
def piece_filenames (root : List (List Char)) (k : Nat) :
    List (List Char) × List (List Char) :=
  (root ++ [toDecChars (k % shardM), toDecChars k],
   root ++ [toDecChars (k % shardM), toDecChars k ++ ['.', 't', 'm', 'p']])

/-- Outcome of `DiskPieceCache::read_piece`: a normal return
(`Ok(None)` / `Ok(Some bytes)`), or a Rust panic. -/
inductive ReadPieceOutcome where
  | ok (piece : Option (List Nat))
  | panicked
  deriving DecidableEq

/-- `DiskPieceCache::read_piece`, as a function of the committed file for the
key (`none` = no file, `has_piece` is false).  The code reads the whole
file, then `bs.split_at(Piece::SIZE)` and `copy_from_slice`:
`split_at` panics when the file is shorter than `Piece::SIZE`, and silently
drops the tail when it is longer, so the returned piece is the first
`Piece::SIZE` bytes. -/
def read_piece (file : Option (List Nat)) : ReadPieceOutcome :=
  match file with
  | none => .ok none
  | some bs =>
      if PieceSIZE ≤ bs.length then .ok (some (bs.take PieceSIZE))
      else .panicked

/-! ### Bloom-filter warm-start recovery (`DefaultCacher::init_bloom_filter`)

The directory tree under the store root is modelled by what the code
observes: the root listing (each entry with the result of its `file_type()`
query and, when it is a directory, the result of enumerating it), and for
each shard directory its entries.  Every fallible query is an `Option`:
reading a shard-directory entry itself can fail (`Result::unwrap` at
default_cacher.rs:145 panics), as can its `file_type()` query (`.unwrap()`
at line 146 panics); both panics happen inside `spawn_blocking`, so
`.await?` at line 150 surfaces them as an `Err(JoinError)` return. -/

/-- A file type as reported by `file_type()`. -/
inductive FType where
  | dir
  | file
  | other
  deriving DecidableEq

/-- An entry of a shard subdirectory: its filename, the result of its
`file_type()` query (`none` when the query failed — the code calls
`.unwrap()` on it and panics inside the `spawn_blocking` closure), and the
record body stored in it (unread by recovery). -/
structure DirEnt where
  name : List Char
  ftype : Option FType
  body : List Nat

/-- An entry of the root directory: the result of its `file_type()` query
(`none` when the query failed — the root loop skips such entries via
`if let Ok`), and its own listing when enumerating it succeeds (`none` when
`read_dir(dir)` fails — skipped via `.ok()`).  Each element of the listing
is itself an `Option`: `none` is an entry whose read failed, on which the
closure calls `Result::unwrap` and panics. -/
structure RootEnt where
  ftype : Option FType
  children : Option (List (Option DirEnt))

/-- The flattened entry stream the `spawn_blocking` closure iterates over:
the entries of every root entry that is a directory and whose own
`read_dir` succeeded (failed shard listings are skipped via
`filter_map(|dir| read_dir(dir).ok())`). -/
def closureEntries (root : List RootEnt) : List (Option DirEnt) :=
  ((root.filter (fun r => r.ftype = some FType.dir)).filterMap
      (fun r => r.children)).flatMap (fun es => es)

/-- Does this entry make the closure panic?  `Result::unwrap` on a failed
entry read, or `file_type().unwrap()` on a failed file-type query. -/
def entryPanics (oe : Option DirEnt) : Bool :=
  match oe with
  | none => true
  | some e => e.ftype.isNone

/-- The filenames recovery collects when no entry panics: the names of the
regular files among the closure's entries. -/
def collectNames (root : List RootEnt) : List (List Char) :=
  (closureEntries root).filterMap (fun oe =>
    match oe with
    | none => none
    | some e => if e.ftype = some FType.file then some e.name else none)

/-- The keys recovery inserts: each collected filename parsed back into a
key with `str::parse::<u64>` (`k.try_into().ok()`), parse failures skipped. -/
def recoverKeys (root : List RootEnt) : List Nat :=
  (collectNames root).filterMap parseU64

/-- Outcome of `DefaultCacher::init_bloom_filter`: the new filter contents,
an `Err` return (the `JoinError` produced by `.await?` when the
`spawn_blocking` closure panicked), or a direct Rust panic. -/
inductive RecoverOutcome where
  | ok (bloom : List Nat)
  | err
  | panicked

/-- `BloomFilter::set`, on the exact-set filter model. -/
def bloomSet (b : List Nat) (k : Nat) : List Nat := k :: b

/-- `BloomFilter::check`, on the exact-set filter model. -/
def bloomCheck (b : List Nat) (k : Nat) : Bool := b.contains k

/-- `DefaultCacher::init_bloom_filter`, as a function of the root listing
(`none` when `read_dir(root)` fails: the code calls `.unwrap()` on it and
panics) and the filter contents before recovery.  If any entry of a
successfully opened shard directory fails to read or to report its file
type, the closure panics and `.await?` returns the join error; otherwise
every recovered key is inserted into the filter. -/
def init_bloom_filter (rootListing : Option (List RootEnt)) (bloom : List Nat) :
    RecoverOutcome :=
  match rootListing with
  | none => .panicked
  | some root =>
      if (closureEntries root).any entryPanics then .err
      else .ok ((recoverKeys root).foldl bloomSet bloom)

/-! ### The orchestrator `DefaultCacher` (`src/default_cacher.rs`)

`DefaultCacher<K, V, C, D>` with `K = u64` keys, `V = Nat` payloads, an
abstract hot cache `HC` (the `Cache` capability) and an abstract disk cache
`DK` (the `DiskCache` capability).  The capability operations the
orchestrator calls are injected through `Caps`. -/

/-- `u128::MAX + 1`: the two hit-rate counters are `u128`. -/
def u128Mod : Nat := 2 ^ 128

/-- The capability operations of the hot cache and the disk cache:
`insert : C::insert_with_weight` (entry, weight); `dstore : D::store`
(success flag and the disk state after the call, a failure being
`Err(_)`); `dload : D::load` (read-only on the disk state,
`Result<Option<V>, Error>`). -/
structure Caps (HC DK : Type) where
  insert : HC → Nat × Nat → Nat → HC
  dstore : DK → Nat → Nat → Bool × DK
  dload : DK → Nat → Except Unit (Option Nat)

/-- The orchestrator state: the `DefaultCacher` fields `bloom_filter`,
`hot_cache`, `disk_cache`, `requested`, `in_hotcache`. -/
structure Cacher (HC DK : Type) where
  bloom : List Nat
  hot : HC
  disk : DK
  requested : Nat
  in_hotcache : Nat

/-- `DefaultCacher::new`: empty filter, the given (default) hot cache and
disk cache, both counters zero.  No I/O is performed. -/
def newCacher {HC DK : Type} (hc0 : HC) (dk0 : DK) : Cacher HC DK :=
  { bloom := [], hot := hc0, disk := dk0, requested := 0, in_hotcache := 0 }

/-- `DefaultCacher::store`: set the filter bit, then the durable write;
on write failure `?` returns the error with the filter already updated and
the hot cache untouched; on success insert `CacheEntry::new(key, value)`
into the hot cache with the given weight.  Returns the Rust result and the
orchestrator state after the call. -/
def store {HC DK : Type} (caps : Caps HC DK) (s : Cacher HC DK)
    (key value weight : Nat) : Except Unit Unit × Cacher HC DK :=
  let s1 : Cacher HC DK := { s with bloom := bloomSet s.bloom key }
  match caps.dstore s1.disk key value with
  | (false, d) => (.error (), { s1 with disk := d })
  | (true, d) =>
      (.ok (), { s1 with disk := d, hot := caps.insert s1.hot (key, value) weight })

/-- `DefaultCacher::load_from_disk`: one disk read; `.ok()?` turns a disk
error into `None`; on `Ok(Some v)` promote `(key, v)` into the hot cache
with the given weight and return the value; on `Ok(None)` return `None`.
(The `instant` argument of the source is timing-only and not modelled.) -/
def load_from_disk {HC DK : Type} (caps : Caps HC DK) (s : Cacher HC DK)
    (key weight : Nat) : Option Nat × Cacher HC DK :=
  match caps.dload s.disk key with
  | .error _ => (none, s)
  | .ok none => (none, s)
  | .ok (some v) =>
      (some v, { s with hot := caps.insert s.hot (key, v) weight })

/-- `DefaultCacher::load`: increment `requested`; if the filter check is
negative return `None` at once; otherwise run the injected hot-cache probe
(`hot_cache_op`), and on a probe hit increment `in_hotcache` and return the
value; on a probe miss fall through to `load_from_disk` on the
probe-updated state. -/
def load {HC DK : Type} (caps : Caps HC DK)
    (probe : HC → Nat → Option Nat × HC) (s : Cacher HC DK)
    (key weight : Nat) : Option Nat × Cacher HC DK :=
  let s1 : Cacher HC DK := { s with requested := (s.requested + 1) % u128Mod }
  if !bloomCheck s1.bloom key then (none, s1)
  else
    match probe s1.hot key with
    | (some v, hc) =>
        (some v, { s1 with hot := hc, in_hotcache := (s1.in_hotcache + 1) % u128Mod })
    | (none, hc) => load_from_disk caps { s1 with hot := hc } key weight

/-- One public orchestrator call (the mutating operations of
`DefaultCacher`): `store`, `load` with an injected probe, or a direct
`load_from_disk`. -/
inductive Op (HC : Type) where
  | opStore (key value weight : Nat)
  | opLoad (key weight : Nat) (probe : HC → Nat → Option Nat × HC)
  | opLoadFromDisk (key weight : Nat)

/-- Run one orchestrator call, keeping the state and dropping the result. -/
def step {HC DK : Type} (caps : Caps HC DK) (s : Cacher HC DK) :
    Op HC → Cacher HC DK
  | .opStore key value weight => (store caps s key value weight).2
  | .opLoad key weight probe => (load caps probe s key weight).2
  | .opLoadFromDisk key weight => (load_from_disk caps s key weight).2

/-- Run a sequence of orchestrator calls. -/
def runOps {HC DK : Type} (caps : Caps HC DK) (s : Cacher HC DK)
    (ops : List (Op HC)) : Cacher HC DK :=
  ops.foldl (step caps) s

/-! ### Concrete capability instances (used by witnesses)

A hot cache that is a plain list with `insert = cons`, an
association-list disk, and `DefaultCacher::load_from_hot_cache`'s
non-mutating `find` probe. -/

/-- A list hot cache: `insert_with_weight` prepends the entry (weight
ignored — a legal `Cache` instance). -/
def listInsert (h : List (Nat × Nat)) (e : Nat × Nat) (_w : Nat) :
    List (Nat × Nat) := e :: h

/-- An association-list disk whose `store` always succeeds. -/
def assocDStore (d : List (Nat × Nat)) (k v : Nat) : Bool × List (Nat × Nat) :=
  (true, (k, v) :: d)

/-- An association-list disk `load`: the first record with the key. -/
def assocDLoad (d : List (Nat × Nat)) (k : Nat) : Except Unit (Option Nat) :=
  .ok ((d.find? (fun e => e.1 == k)).map (fun e => e.2))

/-- Capabilities for the list hot cache over the association-list disk. -/
def listCaps : Caps (List (Nat × Nat)) (List (Nat × Nat)) :=
  { insert := listInsert, dstore := assocDStore, dload := assocDLoad }

/-- A disk whose durable write always fails and leaves the disk state
unchanged. -/
def errStoreCaps : Caps (List (Nat × Nat)) (List (Nat × Nat)) :=
  { insert := listInsert, dstore := fun d _ _ => (false, d), dload := assocDLoad }

/-- A disk whose read always fails with an I/O error. -/
def errLoadCaps : Caps (List (Nat × Nat)) (List (Nat × Nat)) :=
  { insert := listInsert, dstore := assocDStore, dload := fun _ _ => .error () }

/-- `DefaultCacher::load_from_hot_cache` as a probe: `Cache::find` on the
list hot cache (first entry with the key, no mutation), value cloned. -/
def findProbe (h : List (Nat × Nat)) (k : Nat) :
    Option Nat × List (Nat × Nat) :=
  ((h.find? (fun e => e.1 == k)).map (fun e => e.2), h)

/-- Erase one record body. -/
def eraseBody (e : DirEnt) : DirEnt := { e with body := [] }

/-- Erase every record body in a directory tree (recovery must not depend
on bodies). -/
def eraseBodies (root : List RootEnt) : List RootEnt :=
  root.map (fun r =>
    { r with children := r.children.map (List.map (Option.map eraseBody)) })

/-- A small concrete store root: one shard directory holding a committed
record `7`, an unparsable file `x`, a temporary artifact `7.tmp` and a
subdirectory `9`, next to a regular file and an entry whose file-type query
failed. -/
def demoRoot : List RootEnt :=
  [{ ftype := some FType.dir,
     children := some
       [some { name := ['7'], ftype := some FType.file, body := [1, 2] },
        some { name := ['x'], ftype := some FType.file, body := [3] },
        some { name := ['7', '.', 't', 'm', 'p'], ftype := some FType.file, body := [4] },
        some { name := ['9'], ftype := some FType.dir, body := [] }] },
   { ftype := some FType.file, children := none },
   { ftype := none, children := none }]

/-- A store root whose single shard directory holds one readable record
`7` and one entry whose read fails: the `spawn_blocking` closure panics on
the failed entry and `init_bloom_filter` returns the join error. -/
def errRoot : List RootEnt :=
  [{ ftype := some FType.dir,
     children := some
       [some { name := ['7'], ftype := some FType.file, body := [] },
        none] }]

/-! ## Theorems -/

/-! ### Codec lemmas -/

theorem digitChar_toNat {d : Nat} (h : d < 10) : (digitChar d).toNat = 48 + d := by
  interval_cases d <;> rfl

theorem isDigitChar_digitChar {d : Nat} (h : d < 10) : isDigitChar (digitChar d) = true := by
  interval_cases d <;> rfl

theorem digitsVal_append (xs : List Char) (c : Char) :
    digitsVal (xs ++ [c]) = digitsVal xs * 10 + (c.toNat - 48) := by
  simp [digitsVal]

theorem toDecAux_spec : ∀ (fuel n : Nat), n < fuel →
    digitsVal (toDecAux fuel n) = n ∧
      (toDecAux fuel n).all isDigitChar = true ∧ toDecAux fuel n ≠ [] := by
  intro fuel
  induction fuel with
  | zero => intro n h; omega
  | succ fuel ih =>
      intro n h
      by_cases hn : n < 10
      · simp only [toDecAux, if_pos hn]
        refine ⟨?_, ?_, by simp⟩
        · simp [digitsVal, digitChar_toNat hn]
        · simp [isDigitChar_digitChar hn]
      · have hn10 : 10 ≤ n := by omega
        have hdiv : n / 10 < fuel := by
          have h1 : n / 10 < n := Nat.div_lt_self (by omega) (by omega)
          omega
        obtain ⟨hv, hd, hne⟩ := ih (n / 10) hdiv
        simp only [toDecAux, if_neg hn]
        refine ⟨?_, ?_, by simp⟩
        · rw [digitsVal_append, hv, digitChar_toNat (Nat.mod_lt _ (by omega))]
          omega
        · simp only [List.all_append, hd, Bool.true_and, List.all_cons, List.all_nil,
            Bool.and_true]
          exact isDigitChar_digitChar (Nat.mod_lt _ (by omega))

theorem toDecChars_val (n : Nat) : digitsVal (toDecChars n) = n :=
  (toDecAux_spec (n + 1) n (Nat.lt_succ_self n)).1

theorem toDecChars_all_digits (n : Nat) : (toDecChars n).all isDigitChar = true :=
  (toDecAux_spec (n + 1) n (Nat.lt_succ_self n)).2.1

theorem toDecChars_ne_nil (n : Nat) : toDecChars n ≠ [] :=
  (toDecAux_spec (n + 1) n (Nat.lt_succ_self n)).2.2

theorem head_toDecChars_ne_plus (n : Nat) :
    ∀ c cs, toDecChars n = c :: cs → c ≠ '+' := by
  intro c cs hc hplus
  have hall := toDecChars_all_digits n
  rw [hc, hplus] at hall
  simp [isDigitChar] at hall

/-- Parsing the decimal form of `n < 2^64` succeeds and yields `n`. -/
theorem parseU64_toDecChars (n : Nat) (h : n < u64Mod) :
    parseU64 (toDecChars n) = some n := by
  have hne := toDecChars_ne_nil n
  have hall := toDecChars_all_digits n
  have hval := toDecChars_val n
  unfold parseU64
  rcases hcs : toDecChars n with _ | ⟨c, cs⟩
  · exact absurd hcs hne
  · have hcplus : c ≠ '+' := head_toDecChars_ne_plus n c cs hcs
    rw [hcs] at hall hval
    simp only [if_neg hcplus, ne_eq, reduceCtorEq, not_false_iff, hall, and_self,
      if_pos, hval, if_pos h]

/-! ### C9: key codec round trip -/

/-- C9: the key codec round-trips losslessly: for every 64-bit unsigned key
`k`, decoding the little-endian bytes of `k` yields `k` back
(`from_bytes (to_bytes k) = k`), and parsing the decimal-ASCII string of
`k` yields `Ok k`. -/
theorem C9_key_codec_roundtrip (k : Nat) (h : k < u64Mod) :
    from_bytes (to_bytes k) = k ∧ parseU64 (toDecChars k) = some k := by
  constructor
  · have h64 : k < 18446744073709551616 := by
      simpa [u64Mod] using h
    simp only [to_bytes, from_bytes]
    omega
  · exact parseU64_toDecChars k h

/-- Witness for `C9_key_codec_roundtrip` at `k = 1031`. -/
theorem C9_key_codec_roundtrip_witness :
    1031 < u64Mod ∧
      (from_bytes (to_bytes 1031) = 1031 ∧ parseU64 (toDecChars 1031) = some 1031) :=
  ⟨by decide, C9_key_codec_roundtrip 1031 (by decide)⟩

/-! ### C8: path derivation -/

/-- C8: path derivation is a pure function of the key: the committed path is
`root/(k mod 1024)/decimal(k)`, the temporary path carries the fixed `.tmp`
suffix in the same shard directory, key `1031` maps to shard `7` (with the
concrete decimal filenames evaluated), and recomputing the paths for equal
keys yields the same result. -/
theorem C8_path_derivation (root : List (List Char)) (k : Nat) :
    (piece_filenames root k).1 = root ++ [toDecChars (k % 1024), toDecChars k] ∧
    (piece_filenames root k).2 =
      root ++ [toDecChars (k % 1024), toDecChars k ++ ['.', 't', 'm', 'p']] ∧
    (piece_filenames root 1031).1 =
      root ++ [['7'], ['1', '0', '3', '1']] ∧
    (piece_filenames root 1031).2 =
      root ++ [['7'], ['1', '0', '3', '1', '.', 't', 'm', 'p']] ∧
    (∀ k1 k2 : Nat, k1 = k2 → piece_filenames root k1 = piece_filenames root k2) := by
  refine ⟨rfl, rfl, ?_, ?_, ?_⟩
  · show root ++ [toDecChars (1031 % shardM), toDecChars 1031] = _
    norm_num [shardM]
    constructor <;> rfl
  · show root ++ [toDecChars (1031 % shardM), toDecChars 1031 ++ ['.', 't', 'm', 'p']] = _
    norm_num [shardM]
    constructor <;> rfl
  · intro k1 k2 hk
    rw [hk]

/-- Witness for `C8_path_derivation` at an empty root and `k = 1031`. -/
theorem C8_path_derivation_witness :
    (piece_filenames [] 1031).1 = [] ++ [['7'], ['1', '0', '3', '1']] ∧
      piece_filenames [] 1031 = piece_filenames [] 1031 :=
  ⟨(C8_path_derivation [] 1031).2.2.1,
   (C8_path_derivation [] 1031).2.2.2.2 1031 1031 rfl⟩

/-! ### C5: record-size mismatch on read (code bug)

`read_piece` does not surface a size mismatch as an error: a record one
byte longer than `Piece::SIZE` is silently truncated to its first
`Piece::SIZE` bytes and returned as `Ok(Some _)`, and a record one byte
shorter makes `split_at` panic. -/

/-- C5 (code bug, evaluation at the failing input): a committed record of
`Piece::SIZE + 1` bytes is returned as `Ok(Some _)` holding only the first
`Piece::SIZE` bytes — silent truncation, not an error — and a record of
`Piece::SIZE - 1` bytes panics rather than returning a corruption error. -/
theorem C5_read_piece_size_mismatch :
    read_piece (some (List.replicate (PieceSIZE + 1) 7)) =
      ReadPieceOutcome.ok (some (List.replicate PieceSIZE 7)) ∧
    read_piece (some (List.replicate (PieceSIZE - 1) 7)) =
      ReadPieceOutcome.panicked := by
  constructor
  · simp only [read_piece]
    rw [if_pos (by rw [List.length_replicate]; omega)]
    rw [List.take_replicate]
    congr 2
  · simp only [read_piece]
    rw [if_neg (by rw [List.length_replicate]; simp only [PieceSIZE]; omega)]

/-! ### Recovery lemmas (C6, C7) -/

theorem all_tmp_false (m : List Char) :
    (m ++ ['.', 't', 'm', 'p']).all isDigitChar = false := by
  simp [List.all_append, isDigitChar]

theorem cond_tmp_false (m : List Char) :
    ¬(m ++ ['.', 't', 'm', 'p'] ≠ [] ∧
        (m ++ ['.', 't', 'm', 'p']).all isDigitChar = true) := by
  rintro ⟨-, hall⟩
  rw [all_tmp_false m] at hall
  exact Bool.false_ne_true hall

/-- A filename with the `.tmp` suffix never parses as a key. -/
theorem parseU64_append_tmp (l : List Char) :
    parseU64 (l ++ ['.', 't', 'm', 'p']) = none := by
  unfold parseU64
  cases l with
  | nil =>
      exact if_neg (cond_tmp_false [])
  | cons c rest =>
      by_cases hc : c = '+'
      · subst hc
        simp only [List.cons_append, if_pos rfl]
        exact if_neg (cond_tmp_false rest)
      · simp only [List.cons_append, if_neg hc]
        exact if_neg (by
          have h := cond_tmp_false (c :: rest)
          simpa using h)

/-- Erasing bodies leaves the closure's entry stream unchanged except for
the bodies themselves. -/
theorem closureEntries_eraseBodies (root : List RootEnt) :
    closureEntries (eraseBodies root) =
      (closureEntries root).map (Option.map eraseBody) := by
  induction root with
  | nil => rfl
  | cons r t ih =>
      unfold closureEntries eraseBodies at *
      by_cases hd : r.ftype = some FType.dir <;>
        cases hc : r.children <;>
          simp [hd, hc, ih]

theorem collectNames_eraseBodies (root : List RootEnt) :
    collectNames (eraseBodies root) = collectNames root := by
  unfold collectNames
  rw [closureEntries_eraseBodies, List.filterMap_map]
  apply List.filterMap_congr
  intro oe _
  cases oe with
  | none => rfl
  | some e => rfl

/-- Membership in the filter after folding in a list of keys. -/
theorem bloomCheck_foldl (ks b : List Nat) (k : Nat) :
    bloomCheck (ks.foldl bloomSet b) k = true ↔ k ∈ ks ∨ bloomCheck b k = true := by
  induction ks generalizing b with
  | nil => simp
  | cons a t ih =>
      rw [List.foldl_cons, ih]
      have hc : bloomCheck (bloomSet b a) k = true ↔ k = a ∨ bloomCheck b k = true := by
        simp [bloomCheck, bloomSet]
      rw [hc, List.mem_cons]
      tauto

/-! ### C6: recovery failure modes (code bug) -/

/-- C6 (code bug, evaluation at the failing inputs): the claim's "fails by
returning an error exactly when the root directory cannot be enumerated"
is wrong in both directions.  When the store root cannot be enumerated,
`init_bloom_filter` panics (`.unwrap()` on `read_dir`) instead of
returning an error; an error return does occur, but exactly when some
entry of a successfully opened shard directory fails to read or to report
its file type (the `spawn_blocking` closure panics on `Result::unwrap` /
`file_type().unwrap()` and `.await?` surfaces the join error) — shown at
the concrete root `errRoot`.  When no entry panics, recovery returns
normally with exactly the parsable keys: a filename that fails to parse is
skipped and is never fatal. -/
theorem C6_recovery_failure_modes :
    init_bloom_filter none [] = RecoverOutcome.panicked ∧
    (∀ rootL bloom,
      init_bloom_filter (some rootL) bloom = RecoverOutcome.err ↔
        (closureEntries rootL).any entryPanics = true) ∧
    (∀ rootL bloom,
      init_bloom_filter (some rootL) bloom = RecoverOutcome.err ∨
      init_bloom_filter (some rootL) bloom =
        RecoverOutcome.ok ((recoverKeys rootL).foldl bloomSet bloom)) ∧
    init_bloom_filter (some errRoot) [] = RecoverOutcome.err := by
  refine ⟨rfl, ?_, ?_, rfl⟩
  · intro rootL bloom
    unfold init_bloom_filter
    by_cases hp : (closureEntries rootL).any entryPanics = true
    · simp [hp]
    · simp [hp]
  · intro rootL bloom
    unfold init_bloom_filter
    by_cases hp : (closureEntries rootL).any entryPanics = true
    · simp [hp]
    · simp [hp]

/-! ### C7: recovery inserts exactly the parsed keys -/

/-- C7: on a successful recovery the filter afterwards contains a key `k`
exactly when some collected filename (a regular file inside a shard
directory; subdirectories and failed listings contribute nothing) parses to
`k`, or the filter already contained `k`; temporary `.tmp` artifacts never
parse and are thus skipped; and the recovered keys do not depend on any
record body. -/
theorem C7_recovery_exact (rootL : List RootEnt) (bloom : List Nat) :
    (∀ bl, init_bloom_filter (some rootL) bloom = RecoverOutcome.ok bl →
      ∀ k, bloomCheck bl k = true ↔
        ((∃ name, name ∈ collectNames rootL ∧ parseU64 name = some k) ∨
          bloomCheck bloom k = true)) ∧
    (∀ l, parseU64 (l ++ ['.', 't', 'm', 'p']) = none) ∧
    recoverKeys (eraseBodies rootL) = recoverKeys rootL := by
  refine ⟨?_, fun l => parseU64_append_tmp l, ?_⟩
  · intro bl hbl k
    simp only [init_bloom_filter] at hbl
    by_cases hp : (closureEntries rootL).any entryPanics = true
    · rw [if_pos hp] at hbl
      exact absurd hbl (by simp)
    · rw [if_neg hp] at hbl
      injection hbl with hbl'
      subst hbl'
      rw [bloomCheck_foldl]
      constructor
      · rintro (hk | hb)
        · exact Or.inl (by simpa [recoverKeys, List.mem_filterMap] using hk)
        · exact Or.inr hb
      · rintro (⟨name, hmem, hparse⟩ | hb)
        · exact Or.inl (List.mem_filterMap.mpr ⟨name, hmem, hparse⟩)
        · exact Or.inr hb
  · unfold recoverKeys
    rw [collectNames_eraseBodies]

/-- Witness for `C7_recovery_exact` on the concrete store root `demoRoot`:
recovery inserts exactly the key `7`. -/
theorem C7_recovery_exact_witness :
    init_bloom_filter (some demoRoot) [] = RecoverOutcome.ok [7] ∧
    (bloomCheck [7] 7 = true ↔
      ((∃ name, name ∈ collectNames demoRoot ∧ parseU64 name = some 7) ∨
        bloomCheck ([] : List Nat) 7 = true)) :=
  ⟨rfl, (C7_recovery_exact demoRoot []).1 [7] rfl 7⟩

/-! ### Orchestrator field lemmas -/

theorem store_bloom {HC DK : Type} (caps : Caps HC DK) (s : Cacher HC DK)
    (k v w : Nat) : (store caps s k v w).2.bloom = bloomSet s.bloom k := by
  rcases hd : caps.dstore s.disk k v with ⟨b, d⟩
  cases b <;> simp [store, hd]

theorem store_counters {HC DK : Type} (caps : Caps HC DK) (s : Cacher HC DK)
    (k v w : Nat) :
    (store caps s k v w).2.requested = s.requested ∧
      (store caps s k v w).2.in_hotcache = s.in_hotcache := by
  rcases hd : caps.dstore s.disk k v with ⟨b, d⟩
  cases b <;> simp [store, hd]

theorem load_from_disk_bloom {HC DK : Type} (caps : Caps HC DK)
    (s : Cacher HC DK) (k w : Nat) :
    (load_from_disk caps s k w).2.bloom = s.bloom := by
  unfold load_from_disk
  rcases caps.dload s.disk k with e | o
  · rfl
  · rcases o with - | v <;> rfl

theorem load_from_disk_counters {HC DK : Type} (caps : Caps HC DK)
    (s : Cacher HC DK) (k w : Nat) :
    (load_from_disk caps s k w).2.requested = s.requested ∧
      (load_from_disk caps s k w).2.in_hotcache = s.in_hotcache := by
  unfold load_from_disk
  rcases caps.dload s.disk k with e | o
  · exact ⟨rfl, rfl⟩
  · rcases o with - | v <;> exact ⟨rfl, rfl⟩

theorem load_bloom {HC DK : Type} (caps : Caps HC DK)
    (probe : HC → Nat → Option Nat × HC) (s : Cacher HC DK) (k w : Nat) :
    (load caps probe s k w).2.bloom = s.bloom := by
  unfold load
  by_cases hb : bloomCheck s.bloom k
  · simp only [hb, Bool.not_true, Bool.false_eq_true, if_false]
    rcases hp : probe s.hot k with ⟨maybe, hc⟩
    rcases maybe with - | v
    · exact load_from_disk_bloom caps _ k w
    · rfl
  · simp only [Bool.not_eq_true] at hb
    simp [hb]

theorem load_counters {HC DK : Type} (caps : Caps HC DK)
    (probe : HC → Nat → Option Nat × HC) (s : Cacher HC DK) (k w : Nat)
    (hreq : s.requested + 1 < u128Mod) (hinv : s.in_hotcache ≤ s.requested) :
    (load caps probe s k w).2.requested = s.requested + 1 ∧
      (load caps probe s k w).2.in_hotcache =
        s.in_hotcache +
          (if bloomCheck s.bloom k = true ∧ (probe s.hot k).1.isSome = true
           then 1 else 0) := by
  have hmod : (s.requested + 1) % u128Mod = s.requested + 1 := Nat.mod_eq_of_lt hreq
  have hmod2 : (s.in_hotcache + 1) % u128Mod = s.in_hotcache + 1 :=
    Nat.mod_eq_of_lt (by omega)
  unfold load
  by_cases hb : bloomCheck s.bloom k
  · simp only [hb, Bool.not_true, Bool.false_eq_true, if_false]
    rcases hp : probe s.hot k with ⟨maybe, hc⟩
    rcases maybe with - | v
    · simp only [hp]
      have h := load_from_disk_counters caps
        { s with requested := (s.requested + 1) % u128Mod, hot := hc } k w
      rw [h.1, h.2]
      simp [hmod, hp]
    · simp [hmod, hmod2, hp, hb]
  · simp only [Bool.not_eq_true] at hb
    simp [hb, hmod]

/-! ### C2: failed durable write leaves the hot cache unchanged -/

/-- C2: if the durable write inside `store` fails, `store` returns the
error and the hot cache is left unchanged; `store` returns `Ok` exactly
when the durable write succeeded, and only then is the entry inserted into
the hot cache (so a successful return means the value is durable). -/
theorem C2_store_error_hot_untouched {HC DK : Type} (caps : Caps HC DK)
    (s : Cacher HC DK) (k v w : Nat) :
    ((store caps s k v w).1 = Except.error () →
      (store caps s k v w).2.hot = s.hot) ∧
    ((store caps s k v w).1 = Except.ok () ↔ (caps.dstore s.disk k v).1 = true) ∧
    ((caps.dstore s.disk k v).1 = true →
      (store caps s k v w).2.hot = caps.insert s.hot (k, v) w ∧
      (store caps s k v w).2.disk = (caps.dstore s.disk k v).2) := by
  rcases hd : caps.dstore s.disk k v with ⟨b, d⟩
  cases b <;> simp [store, hd]

/-- Witness for `C2_store_error_hot_untouched`: a disk whose write fails
leaves the hot cache empty. -/
theorem C2_store_error_hot_untouched_witness :
    (store errStoreCaps (newCacher ([] : List (Nat × Nat)) ([] : List (Nat × Nat))) 1 2 3).1 =
      Except.error () ∧
    (store errStoreCaps (newCacher ([] : List (Nat × Nat)) ([] : List (Nat × Nat))) 1 2 3).2.hot =
      [] :=
  ⟨rfl,
   (C2_store_error_hot_untouched errStoreCaps
      (newCacher ([] : List (Nat × Nat)) ([] : List (Nat × Nat))) 1 2 3).1 rfl⟩

/-! ### C4: error propagation (corrected)

The claim fails on the read path: `load_from_disk` uses `.ok()?`, which
converts a disk I/O error into `None`, and `load` returns `Option<V>`,
which cannot carry an error at all.  Only `store` propagates. -/

/-- C4 counterexample: with a disk whose read fails with an I/O error,
`load_from_disk` returns `None` — the error is converted into a silent
empty result, not propagated to the caller (the same holds for `load`
falling through to the disk stage). -/
theorem C4_counterexample_error_swallowed :
    errLoadCaps.dload ([] : List (Nat × Nat)) 5 = Except.error () ∧
    (load_from_disk errLoadCaps
        (newCacher ([] : List (Nat × Nat)) ([] : List (Nat × Nat))) 5 1).1 = none ∧
    (load errLoadCaps findProbe
        ({ bloom := [5], hot := [], disk := [], requested := 0, in_hotcache := 0 } :
          Cacher (List (Nat × Nat)) (List (Nat × Nat)))
        5 1).1 = none :=
  ⟨rfl, rfl, rfl⟩

/-- C4 amended: `store` propagates a durable-write error to its caller,
while the disk-read stage of `load`/`load_from_disk` converts a disk error
into an empty (`None`) result. -/
theorem C4_error_propagation {HC DK : Type} (caps : Caps HC DK)
    (probe : HC → Nat → Option Nat × HC) (s : Cacher HC DK) (k v w : Nat) :
    ((caps.dstore s.disk k v).1 = false →
      (store caps s k v w).1 = Except.error ()) ∧
    (∀ e, caps.dload s.disk k = Except.error e →
      load_from_disk caps s k w = (none, s)) ∧
    (∀ e hc, caps.dload s.disk k = Except.error e →
      bloomCheck s.bloom k = true → probe s.hot k = (none, hc) →
      (load caps probe s k w).1 = none) := by
  refine ⟨?_, ?_, ?_⟩
  · intro hfail
    rcases hd : caps.dstore s.disk k v with ⟨b, d⟩
    rw [hd] at hfail
    simp only at hfail
    subst hfail
    simp [store, hd]
  · intro e he
    simp [load_from_disk, he]
  · intro e hc he hb hp
    unfold load
    simp only [hb, Bool.not_true, Bool.false_eq_true, if_false, hp]
    simp [load_from_disk, he]

/-- Witness for `C4_error_propagation`: concrete failing disks for the
write and read paths. -/
theorem C4_error_propagation_witness :
    (errStoreCaps.dstore ([] : List (Nat × Nat)) 1 2).1 = false ∧
    (store errStoreCaps (newCacher ([] : List (Nat × Nat)) ([] : List (Nat × Nat))) 1 2 3).1 =
      Except.error () ∧
    load_from_disk errLoadCaps
        (newCacher ([] : List (Nat × Nat)) ([] : List (Nat × Nat))) 5 1 =
      (none, newCacher ([] : List (Nat × Nat)) ([] : List (Nat × Nat))) :=
  ⟨rfl,
   (C4_error_propagation errStoreCaps findProbe
      (newCacher ([] : List (Nat × Nat)) ([] : List (Nat × Nat))) 1 2 3).1 rfl,
   (C4_error_propagation errLoadCaps findProbe
      (newCacher ([] : List (Nat × Nat)) ([] : List (Nat × Nat))) 5 0 1).2.1 () rfl⟩

/-! ### C1: the fixed read algorithm of `load` -/

/-- C1: `load` follows the fixed read algorithm: it increments the
requested counter; on a negative filter test it returns empty at once with
the hot cache and the disk untouched; on a filter hit with a successful
hot-cache probe it increments the hit counter and returns the probed value
with no disk access (the result is independent of the disk-read
capability); otherwise it performs the single disk read, promoting a fresh
`CacheEntry` with the given weight on a disk hit and returning empty on a
disk miss. -/
theorem C1_load_read_algorithm {HC DK : Type} (caps : Caps HC DK)
    (probe : HC → Nat → Option Nat × HC) (s : Cacher HC DK) (key weight : Nat) :
    ((load caps probe s key weight).2.requested = (s.requested + 1) % u128Mod) ∧
    (bloomCheck s.bloom key = false →
      load caps probe s key weight =
        (none, { s with requested := (s.requested + 1) % u128Mod })) ∧
    (∀ v hc, bloomCheck s.bloom key = true → probe s.hot key = (some v, hc) →
      (load caps probe s key weight =
        (some v,
         { s with
           requested := (s.requested + 1) % u128Mod,
           hot := hc,
           in_hotcache := (s.in_hotcache + 1) % u128Mod }) ∧
       ∀ caps' : Caps HC DK, caps'.insert = caps.insert → caps'.dstore = caps.dstore →
         load caps' probe s key weight = load caps probe s key weight)) ∧
    (∀ hc, bloomCheck s.bloom key = true → probe s.hot key = (none, hc) →
      ((∀ v, caps.dload s.disk key = Except.ok (some v) →
          load caps probe s key weight =
            (some v,
             { s with
               requested := (s.requested + 1) % u128Mod,
               hot := caps.insert hc (key, v) weight })) ∧
       (caps.dload s.disk key = Except.ok none →
          load caps probe s key weight =
            (none, { s with requested := (s.requested + 1) % u128Mod, hot := hc })))) := by
  refine ⟨?_, ?_, ?_, ?_⟩
  · unfold load
    by_cases hb : bloomCheck s.bloom key
    · simp only [hb, Bool.not_true, Bool.false_eq_true, if_false]
      rcases hp : probe s.hot key with ⟨maybe, hc⟩
      rcases maybe with - | v
      · exact (load_from_disk_counters caps
          { s with requested := (s.requested + 1) % u128Mod, hot := hc } key weight).1
      · rfl
    · simp only [Bool.not_eq_true] at hb
      simp [hb]
  · intro hb
    simp [load, hb]
  · intro v hc hb hp
    constructor
    · simp [load, hb, hp]
    · intro caps' hins hdst
      simp [load, hb, hp]
  · intro hc hb hp
    constructor
    · intro v hv
      simp [load, hb, hp, load_from_disk, hv]
    · intro hv
      simp [load, hb, hp, load_from_disk, hv]

/-- Witness for `C1_load_read_algorithm`: a concrete hot-cache hit
(key `5` with value `99` resident) increments both counters and returns the
value. -/
theorem C1_load_read_algorithm_witness :
    bloomCheck [5] 5 = true ∧ findProbe [(5, 99)] 5 = (some 99, [(5, 99)]) ∧
    load listCaps findProbe
        ({ bloom := [5], hot := [(5, 99)], disk := [], requested := 0, in_hotcache := 0 } :
          Cacher (List (Nat × Nat)) (List (Nat × Nat))) 5 1 =
      (some 99,
       { bloom := [5], hot := [(5, 99)], disk := [], requested := 1 % u128Mod,
         in_hotcache := 1 % u128Mod }) :=
  ⟨rfl, rfl,
   ((C1_load_read_algorithm listCaps findProbe
      ({ bloom := [5], hot := [(5, 99)], disk := [], requested := 0, in_hotcache := 0 } :
        Cacher (List (Nat × Nat)) (List (Nat × Nat))) 5 1).2.2.1 99 [(5, 99)] rfl rfl).1⟩

/-! ### C3: no false negatives across operation sequences -/

theorem bloomCheck_bloomSet_self (b : List Nat) (k : Nat) :
    bloomCheck (bloomSet b k) k = true := by
  simp [bloomCheck, bloomSet]

theorem bloomCheck_bloomSet_mono (b : List Nat) (k j : Nat)
    (h : bloomCheck b k = true) : bloomCheck (bloomSet b j) k = true := by
  simp only [bloomCheck] at h
  have hk : k ∈ b := by simpa using h
  simp [bloomCheck, bloomSet, hk]

theorem step_bloom_mono {HC DK : Type} (caps : Caps HC DK) (s : Cacher HC DK)
    (op : Op HC) (k : Nat) (h : bloomCheck s.bloom k = true) :
    bloomCheck (step caps s op).bloom k = true := by
  cases op with
  | opStore key value weight =>
      rw [step, store_bloom]
      exact bloomCheck_bloomSet_mono s.bloom k key h
  | opLoad key weight probe =>
      rw [step, load_bloom]
      exact h
  | opLoadFromDisk key weight =>
      rw [step, load_from_disk_bloom]
      exact h

theorem runOps_bloom_mono {HC DK : Type} (caps : Caps HC DK) :
    ∀ (ops : List (Op HC)) (s : Cacher HC DK) (k : Nat),
      bloomCheck s.bloom k = true →
      bloomCheck (runOps caps s ops).bloom k = true := by
  intro ops
  induction ops with
  | nil => intro s k h; exact h
  | cons op rest ih =>
      intro s k h
      exact ih (step caps s op) k (step_bloom_mono caps s op k h)

theorem runOps_store_sets {HC DK : Type} (caps : Caps HC DK) :
    ∀ (ops : List (Op HC)) (s : Cacher HC DK) (k : Nat),
      (∃ v w, Op.opStore k v w ∈ ops) →
      bloomCheck (runOps caps s ops).bloom k = true := by
  intro ops
  induction ops with
  | nil =>
      rintro s k ⟨v, w, hmem⟩
      exact absurd hmem (List.not_mem_nil _)
  | cons op rest ih =>
      rintro s k ⟨v, w, hmem⟩
      rcases List.mem_cons.mp hmem with hop | htail
      · subst hop
        apply runOps_bloom_mono caps rest
        rw [step, store_bloom]
        exact bloomCheck_bloomSet_self s.bloom k
      · exact ih (step caps s op) k ⟨v, w, htail⟩

/-- C3: no false negatives: after any sequence of orchestrator operations
from construction that contains a `store` of key `k`, the membership-filter
test for `k` is true; no operation ever clears a filter bit (per-step
monotonicity); and `store` sets the filter bit for its key whether or not
the durable write succeeds — the bit is set before the write begins. -/
theorem C3_filter_no_false_negatives {HC DK : Type} (caps : Caps HC DK)
    (hc0 : HC) (dk0 : DK) (ops : List (Op HC)) (k : Nat) :
    ((∃ v w, Op.opStore k v w ∈ ops) →
      bloomCheck (runOps caps (newCacher hc0 dk0) ops).bloom k = true) ∧
    (∀ (s : Cacher HC DK) (op : Op HC), bloomCheck s.bloom k = true →
      bloomCheck (step caps s op).bloom k = true) ∧
    (∀ (s : Cacher HC DK) (v w : Nat),
      bloomCheck ((store caps s k v w).2).bloom k = true) := by
  refine ⟨?_, ?_, ?_⟩
  · intro hmem
    exact runOps_store_sets caps ops (newCacher hc0 dk0) k hmem
  · intro s op h
    exact step_bloom_mono caps s op k h
  · intro s v w
    rw [store_bloom]
    exact bloomCheck_bloomSet_self s.bloom k

/-- Witness for `C3_filter_no_false_negatives`: after storing key `3` the
filter test for `3` is true. -/
theorem C3_filter_no_false_negatives_witness :
    (∃ v w, Op.opStore 3 v w ∈ [(Op.opStore 3 10 1 : Op (List (Nat × Nat)))]) ∧
    bloomCheck
      (runOps listCaps (newCacher ([] : List (Nat × Nat)) ([] : List (Nat × Nat)))
        [Op.opStore 3 10 1]).bloom 3 = true :=
  ⟨⟨10, 1, List.mem_singleton.mpr rfl⟩,
   (C3_filter_no_false_negatives listCaps ([] : List (Nat × Nat))
      ([] : List (Nat × Nat)) [Op.opStore 3 10 1] 3).1
     ⟨10, 1, List.mem_singleton.mpr rfl⟩⟩

/-! ### C10: counter invariants -/

theorem step_counter_inv {HC DK : Type} (caps : Caps HC DK) (s : Cacher HC DK)
    (op : Op HC) (hinv : s.in_hotcache ≤ s.requested)
    (hreq : s.requested + 1 < u128Mod) :
    (step caps s op).in_hotcache ≤ (step caps s op).requested ∧
      s.requested ≤ (step caps s op).requested ∧
      s.in_hotcache ≤ (step caps s op).in_hotcache ∧
      (step caps s op).requested ≤ s.requested + 1 := by
  cases op with
  | opStore key value weight =>
      have h := store_counters caps s key value weight
      rw [step, h.1, h.2]
      omega
  | opLoadFromDisk key weight =>
      have h := load_from_disk_counters caps s key weight
      rw [step, h.1, h.2]
      omega
  | opLoad key weight probe =>
      have h := load_counters caps probe s key weight hreq hinv
      rw [step, h.1, h.2]
      split <;> omega

theorem runOps_counter_inv {HC DK : Type} (caps : Caps HC DK) :
    ∀ (ops : List (Op HC)) (s : Cacher HC DK),
      s.in_hotcache ≤ s.requested →
      s.requested + ops.length < u128Mod →
      (runOps caps s ops).in_hotcache ≤ (runOps caps s ops).requested ∧
        s.requested ≤ (runOps caps s ops).requested ∧
        s.in_hotcache ≤ (runOps caps s ops).in_hotcache ∧
        (runOps caps s ops).requested ≤ s.requested + ops.length := by
  intro ops
  induction ops with
  | nil =>
      intro s hinv hlen
      exact ⟨hinv, Nat.le_refl _, Nat.le_refl _, by simp [runOps]⟩
  | cons op rest ih =>
      intro s hinv hlen
      have hcons : runOps caps s (op :: rest) = runOps caps (step caps s op) rest :=
        rfl
      rw [hcons]
      have hreq : s.requested + 1 < u128Mod := by
        simp only [List.length_cons] at hlen
        omega
      have hstep := step_counter_inv caps s op hinv hreq
      have hrest := ih (step caps s op) hstep.1 (by
        simp only [List.length_cons] at hlen
        omega)
      refine ⟨hrest.1, ?_, ?_, ?_⟩
      · exact Nat.le_trans hstep.2.1 hrest.2.1
      · exact Nat.le_trans hstep.2.2.1 hrest.2.2.1
      · simp only [List.length_cons]
        have h1 := hrest.2.2.2
        have h2 := hstep.2.2.2
        omega

/-- C10: counter invariant: after every operation sequence from
construction the hit counter is at most the requested counter; both
counters are non-decreasing along the run; appending a `store` or a direct
`load_from_disk` changes neither counter; and appending a `load` increments
the requested counter by exactly one, incrementing the hit counter exactly
when the filter test passes and the hot-cache probe succeeds. -/
theorem C10_counter_invariant {HC DK : Type} (caps : Caps HC DK)
    (hc0 : HC) (dk0 : DK) (ops : List (Op HC))
    (hlen : ops.length + 1 < u128Mod) :
    (runOps caps (newCacher hc0 dk0) ops).in_hotcache ≤
      (runOps caps (newCacher hc0 dk0) ops).requested ∧
    (∀ pre post, ops = pre ++ post →
      (runOps caps (newCacher hc0 dk0) pre).requested ≤
        (runOps caps (newCacher hc0 dk0) ops).requested ∧
      (runOps caps (newCacher hc0 dk0) pre).in_hotcache ≤
        (runOps caps (newCacher hc0 dk0) ops).in_hotcache) ∧
    (∀ k v w,
      (runOps caps (newCacher hc0 dk0) (ops ++ [Op.opStore k v w])).requested =
        (runOps caps (newCacher hc0 dk0) ops).requested ∧
      (runOps caps (newCacher hc0 dk0) (ops ++ [Op.opStore k v w])).in_hotcache =
        (runOps caps (newCacher hc0 dk0) ops).in_hotcache) ∧
    (∀ k w,
      (runOps caps (newCacher hc0 dk0) (ops ++ [Op.opLoadFromDisk k w])).requested =
        (runOps caps (newCacher hc0 dk0) ops).requested ∧
      (runOps caps (newCacher hc0 dk0) (ops ++ [Op.opLoadFromDisk k w])).in_hotcache =
        (runOps caps (newCacher hc0 dk0) ops).in_hotcache) ∧
    (∀ k w probe,
      (runOps caps (newCacher hc0 dk0) (ops ++ [Op.opLoad k w probe])).requested =
        (runOps caps (newCacher hc0 dk0) ops).requested + 1 ∧
      (runOps caps (newCacher hc0 dk0) (ops ++ [Op.opLoad k w probe])).in_hotcache =
        (runOps caps (newCacher hc0 dk0) ops).in_hotcache +
          (if bloomCheck (runOps caps (newCacher hc0 dk0) ops).bloom k = true ∧
              (probe (runOps caps (newCacher hc0 dk0) ops).hot k).1.isSome = true
           then 1 else 0)) := by
  have hinv0 : (newCacher hc0 dk0 : Cacher HC DK).in_hotcache ≤
      (newCacher hc0 dk0 : Cacher HC DK).requested := Nat.le_refl 0
  have hrun := runOps_counter_inv caps ops (newCacher hc0 dk0) hinv0
    (by simpa [newCacher] using Nat.lt_of_succ_lt hlen)
  have hreq1 : (runOps caps (newCacher hc0 dk0) ops).requested + 1 < u128Mod := by
    have h1 := hrun.2.2.2
    rw [show (newCacher hc0 dk0 : Cacher HC DK).requested = 0 from rfl] at h1
    omega
  refine ⟨hrun.1, ?_, ?_, ?_, ?_⟩
  · intro pre post hsplit
    subst hsplit
    have hpre := runOps_counter_inv caps pre (newCacher hc0 dk0) hinv0 (by
      simp only [newCacher, List.length_append] at *
      omega)
    have happ : runOps caps (newCacher hc0 dk0) (pre ++ post) =
        runOps caps (runOps caps (newCacher hc0 dk0) pre) post := by
      unfold runOps
      exact List.foldl_append ..
    have hpost := runOps_counter_inv caps post
      (runOps caps (newCacher hc0 dk0) pre) hpre.1 (by
        have h1 := hpre.2.2.2
        simp only [newCacher, List.length_append] at *
        omega)
    rw [happ]
    exact ⟨hpost.2.1, hpost.2.2.1⟩
  · intro k v w
    have happ : runOps caps (newCacher hc0 dk0) (ops ++ [Op.opStore k v w]) =
        step caps (runOps caps (newCacher hc0 dk0) ops) (Op.opStore k v w) := by
      unfold runOps
      rw [List.foldl_append]
      rfl
    rw [happ, step]
    exact store_counters caps _ k v w
  · intro k w
    have happ : runOps caps (newCacher hc0 dk0) (ops ++ [Op.opLoadFromDisk k w]) =
        step caps (runOps caps (newCacher hc0 dk0) ops) (Op.opLoadFromDisk k w) := by
      unfold runOps
      rw [List.foldl_append]
      rfl
    rw [happ, step]
    exact load_from_disk_counters caps _ k w
  · intro k w probe
    have happ : runOps caps (newCacher hc0 dk0) (ops ++ [Op.opLoad k w probe]) =
        step caps (runOps caps (newCacher hc0 dk0) ops) (Op.opLoad k w probe) := by
      unfold runOps
      rw [List.foldl_append]
      rfl
    rw [happ, step]
    exact load_counters caps probe _ k w hreq1 hrun.1

/-- Witness for `C10_counter_invariant`: a store followed by a hot-hit load
gives hit counter 1 ≤ requested counter 1. -/
theorem C10_counter_invariant_witness :
    ([(Op.opStore 1 2 3 : Op (List (Nat × Nat))),
        Op.opLoad 1 1 findProbe].length + 1 < u128Mod) ∧
    (runOps listCaps (newCacher ([] : List (Nat × Nat)) ([] : List (Nat × Nat)))
        [Op.opStore 1 2 3, Op.opLoad 1 1 findProbe]).in_hotcache ≤
      (runOps listCaps (newCacher ([] : List (Nat × Nat)) ([] : List (Nat × Nat)))
        [Op.opStore 1 2 3, Op.opLoad 1 1 findProbe]).requested :=
  ⟨by decide,
   (C10_counter_invariant listCaps ([] : List (Nat × Nat)) ([] : List (Nat × Nat))
      [Op.opStore 1 2 3, Op.opLoad 1 1 findProbe] (by decide)).1⟩

end CacheSyncer
